import Mathlib

/-!
Verification of the sonic-gnmi path classification and dispatch engine.

This development is a shallow embedding of the Go sources of the repository:
the rootFS resolver (resolveFilesystemPath together with the relevant parts
of Go path-slash-Clean and Join), the gNMI path classifiers and extractors
(path utility functions), the gNOI file inspector (walking a directory tree
and deriving count and single-file info), and the gNMI request handlers.
Filesystem state is modelled as an explicit in-memory directory tree with
per-entry fault flags; external collaborators (the disk-space provider and
the file service seen from the handlers) are modelled as function parameters.
-/

namespace SonicGnmi

/-! ## Go string and path primitives -/

/-- Character-list test that the first list is an initial segment of the
second; Go strings.HasPrefix works the same way on bytes. -/
def chPre : List Char → List Char → Bool
  | [], _ => true
  | _ :: _, [] => false
  | a :: as, b :: bs => a = b && chPre as bs

/-- Go strings.HasPrefix: strHasPre pre s is true when s begins with pre. -/
def strHasPre (pre s : String) : Bool :=
  chPre pre.toList s.toList

/-- Split a character list at every slash character, the way Go code splits a
path into segments; the result always has at least one chunk. -/
def splitSeg : List Char → List (List Char)
  | [] => [[]]
  | c :: cs =>
    if c = '/' then [] :: splitSeg cs
    else
      match splitSeg cs with
      | [] => [[c]]
      | s :: ss => (c :: s) :: ss

/-- Slash-separated segments of a string path. -/
def pathSegs (s : String) : List String :=
  (splitSeg s.toList).map List.asString

/-- Go strings.Join with a slash separator, used to rebuild a cleaned path. -/
def joinSegs : List String → String
  | [] => ""
  | [s] => s
  | s :: rest => s ++ "/" ++ joinSegs rest

/-- One step of the lexical processing inside Go path-slash-filepath Clean:
the output stack is kept reversed; empty and dot segments are dropped, a
dot-dot segment pops a normal segment, is dropped at the root of a rooted
path, and is kept in an unrooted path. -/
def pushSeg (rooted : Bool) (out : List String) (seg : String) : List String :=
  if seg = "" ∨ seg = "." then out
  else if seg = ".." then
    match out with
    | [] => if rooted then [] else [".."]
    | t :: rest => if t = ".." then seg :: t :: rest else rest
  else seg :: out

/-- Go filepath.Clean for slash-separated paths: lexical normalization that
drops empty and dot segments and resolves dot-dot segments; a rooted input
keeps its leading slash and an input that cleans to nothing becomes a dot. -/
def clean (p : String) : String :=
  if strHasPre "/" p then
    (if joinSegs (((pathSegs p).foldl (pushSeg true) []).reverse) = "" then "/"
     else "/" ++ joinSegs (((pathSegs p).foldl (pushSeg true) []).reverse))
  else
    (if joinSegs (((pathSegs p).foldl (pushSeg false) []).reverse) = "" then "."
     else joinSegs (((pathSegs p).foldl (pushSeg false) []).reverse))

/-- Go filepath.Join on two components: non-empty components are joined with
a slash and the result is cleaned. -/
def goJoin (a b : String) : String :=
  if a = "" then (if b = "" then "" else clean b)
  else if b = "" then clean a
  else clean (a ++ "/" ++ b)

/-- Path-model containment: p equals root or continues it past a slash.
This is the descendant relation of the containment invariant. -/
def isUnder (root p : String) : Bool :=
  p == root || strHasPre (root ++ "/") p

/-! ## The rootFS resolver -/

/-- Embedding of resolveFilesystemPath from the Go source: no confinement
when the root is empty or the slash marker, the path unchanged when it
already has the root as a plain string prefix, the join with the root for
other absolute paths, and relative paths unchanged. -/
def resolveFilesystemPath (fsPath rootFS : String) : String :=
  if rootFS = "" ∨ rootFS = "/" then fsPath
  else if strHasPre rootFS fsPath then fsPath
  else if strHasPre "/" fsPath then goJoin rootFS fsPath
  else fsPath

/-! ## Basic lemmas about the primitives -/

theorem chPre_refl (l : List Char) : chPre l l = true := by
  induction l with
  | nil => rfl
  | cons a as ih => simp [chPre, ih]

theorem chPre_append (l m : List Char) : chPre l (l ++ m) = true := by
  induction l with
  | nil => rfl
  | cons a as ih => simp [chPre, ih]

theorem strHasPre_append (a b : String) : strHasPre a (a ++ b) = true := by
  have hdata : (a ++ b).data = a.data ++ b.data := rfl
  simp [strHasPre, String.toList, hdata, chPre_append]

theorem splitSeg_ne_nil (cs : List Char) : splitSeg cs ≠ [] := by
  induction cs with
  | nil => simp [splitSeg]
  | cons c cs ih =>
    by_cases h : c = '/'
    · simp [splitSeg, h]
    · simp only [splitSeg, if_neg h]
      cases hs : splitSeg cs with
      | nil => simp
      | cons s ss => simp

theorem splitSeg_append (xs ys : List Char) :
    splitSeg (xs ++ '/' :: ys) = splitSeg xs ++ splitSeg ys := by
  induction xs with
  | nil => simp [splitSeg]
  | cons c cs ih =>
    by_cases h : c = '/'
    · simp [splitSeg, h, ih]
    · simp only [List.cons_append, splitSeg, if_neg h, ih]
      cases hs : splitSeg cs with
      | nil => exact absurd hs (splitSeg_ne_nil cs)
      | cons s ss => simp [ih, hs]

theorem splitSeg_no_slash (cs : List Char) (h : '/' ∉ cs) :
    splitSeg cs = [cs] := by
  induction cs with
  | nil => rfl
  | cons c cs ih =>
    simp only [List.mem_cons, not_or] at h
    have hc : c ≠ '/' := fun he => h.1 he.symm
    simp [splitSeg, hc, ih h.2]

theorem strData_append (a b : String) : (a ++ b).data = a.data ++ b.data := rfl

theorem strAppend_assoc (a b c : String) : a ++ b ++ c = a ++ (b ++ c) := by
  apply congrArg String.mk
  exact List.append_assoc a.data b.data c.data

theorem pathSegs_one (x : String) (hx : '/' ∉ x.toList) : pathSegs x = [x] := by
  rw [pathSegs, splitSeg_no_slash x.toList hx]
  rfl

theorem pathSegs_slash_append (x : String) :
    pathSegs ("/" ++ x) = "" :: pathSegs x := by
  have h : ("/" ++ x).toList = '/' :: x.toList := rfl
  rw [pathSegs, h, splitSeg]
  simp [pathSegs]
  rfl

theorem pathSegs_append_slash (a b : String) :
    pathSegs (a ++ "/" ++ b) = pathSegs a ++ pathSegs b := by
  have h : (a ++ "/" ++ b).toList = a.toList ++ '/' :: b.toList := by
    show (a ++ "/" ++ b).data = a.data ++ '/' :: b.data
    rw [strData_append, strData_append, List.append_assoc]
    rfl
  rw [pathSegs, h, splitSeg_append]
  simp [pathSegs]

theorem pathSegs_joinSegs (segs : List String) (hne : segs ≠ [])
    (hs : ∀ s ∈ segs, '/' ∉ s.toList) :
    pathSegs (joinSegs segs) = segs := by
  induction segs with
  | nil => exact absurd rfl hne
  | cons x rest ih =>
    cases rest with
    | nil =>
      have hx : '/' ∉ x.toList := hs x (by simp)
      simpa [joinSegs] using pathSegs_one x hx
    | cons y rest2 =>
      have hx : '/' ∉ x.toList := hs x (by simp)
      have hrest : ∀ s ∈ y :: rest2, '/' ∉ s.toList := by
        intro s hsm
        exact hs s (by simp [hsm])
      have hj : joinSegs (x :: y :: rest2) = x ++ "/" ++ joinSegs (y :: rest2) := rfl
      rw [hj, pathSegs_append_slash, ih (by simp) hrest, pathSegs_one x hx]
      rfl

theorem joinSegs_append (xs ys : List String) (hxs : xs ≠ []) (hys : ys ≠ []) :
    joinSegs (xs ++ ys) = joinSegs xs ++ "/" ++ joinSegs ys := by
  induction xs with
  | nil => exact absurd rfl hxs
  | cons x rest ih =>
    cases rest with
    | nil =>
      cases ys with
      | nil => exact absurd rfl hys
      | cons y rest2 => rfl
    | cons x2 rest2 =>
      calc joinSegs ((x :: x2 :: rest2) ++ ys)
          = x ++ "/" ++ joinSegs ((x2 :: rest2) ++ ys) := rfl
        _ = x ++ "/" ++ (joinSegs (x2 :: rest2) ++ "/" ++ joinSegs ys) := by
              rw [ih (by simp)]
        _ = (x ++ "/" ++ joinSegs (x2 :: rest2)) ++ "/" ++ joinSegs ys := by
              simp [strAppend_assoc]
        _ = joinSegs (x :: x2 :: rest2) ++ "/" ++ joinSegs ys := rfl

theorem joinSegs_head_ne_empty (x : String) (rest : List String) (hx : x ≠ "") :
    joinSegs (x :: rest) ≠ "" := by
  cases rest with
  | nil => simpa [joinSegs] using hx
  | cons y rest2 =>
    intro h
    have hd : (x ++ "/" ++ joinSegs (y :: rest2)).data = ("" : String).data :=
      congrArg String.data h
    rw [strData_append, strData_append] at hd
    rcases x.data with _ | ⟨c, cs⟩ <;> simp_all

/-- The segments that survive the Clean processing of a dot-free path:
empty and single-dot segments are dropped, everything else is kept. -/
def keepSeg (s : String) : Bool := !(s == "" || s == ".")

theorem foldl_pushSeg_no_dots (rooted : Bool) (segs : List String)
    (h : ∀ s ∈ segs, s ≠ "..") (init : List String) :
    segs.foldl (pushSeg rooted) init = (segs.filter keepSeg).reverse ++ init := by
  induction segs generalizing init with
  | nil => simp
  | cons s rest ih =>
    have hs : s ≠ ".." := h s (by simp)
    have hrest : ∀ x ∈ rest, x ≠ ".." := fun x hx => h x (by simp [hx])
    by_cases hskip : s = "" ∨ s = "."
    · have hpush : pushSeg rooted init s = init := by simp [pushSeg, hskip]
      have hkeep : keepSeg s = false := by
        rcases hskip with h1 | h1 <;> simp [keepSeg, h1]
      simp [List.foldl_cons, hpush, List.filter_cons, hkeep, ih hrest]
    · have hpush : pushSeg rooted init s = s :: init := by
        simp [pushSeg, hskip, hs]
      have hkeep : keepSeg s = true := by
        simp only [not_or] at hskip
        simp [keepSeg, hskip.1, hskip.2]
      simp [List.foldl_cons, hpush, List.filter_cons, hkeep, ih hrest]

/-- Core containment fact behind the amended idempotence claim: cleaning the
join of a normalized absolute root with an absolute dot-dot-free path leaves
the root as a leading string of the result. -/
theorem clean_join_has_root (rsegs : List String) (p : String)
    (hne : rsegs ≠ [])
    (hr : ∀ s ∈ rsegs, s ≠ "" ∧ s ≠ "." ∧ s ≠ ".." ∧ '/' ∉ s.toList)
    (hpd : ∀ s ∈ pathSegs p, s ≠ "..") :
    strHasPre ("/" ++ joinSegs rsegs)
      (clean (("/" ++ joinSegs rsegs) ++ "/" ++ p)) = true := by
  have hrooted : strHasPre "/" (("/" ++ joinSegs rsegs) ++ "/" ++ p) = true := by
    rw [strAppend_assoc, strAppend_assoc]
    exact strHasPre_append "/" _
  have hslash : ∀ s ∈ rsegs, '/' ∉ s.toList := fun s hs => (hr s hs).2.2.2
  have hsegs : pathSegs (("/" ++ joinSegs rsegs) ++ "/" ++ p)
      = ("" :: rsegs) ++ pathSegs p := by
    rw [pathSegs_append_slash, pathSegs_slash_append,
      pathSegs_joinSegs rsegs hne hslash]
  have hrdots : ∀ s ∈ rsegs, s ≠ ".." := fun s hs => (hr s hs).2.2.1
  have hrfilter : rsegs.filter keepSeg = rsegs := by
    apply List.filter_eq_self.mpr
    intro s hs
    simp [keepSeg, (hr s hs).1, (hr s hs).2.1]
  have hout : ((pathSegs (("/" ++ joinSegs rsegs) ++ "/" ++ p)).foldl
        (pushSeg true) []).reverse
      = rsegs ++ (pathSegs p).filter keepSeg := by
    rw [hsegs, List.foldl_append, List.foldl_cons,
      show pushSeg true [] "" = [] from rfl,
      foldl_pushSeg_no_dots true rsegs hrdots [], hrfilter, List.append_nil,
      foldl_pushSeg_no_dots true (pathSegs p) hpd rsegs.reverse,
      List.reverse_append, List.reverse_reverse, List.reverse_reverse]
  have hxne : joinSegs rsegs ≠ "" := by
    cases rsegs with
    | nil => exact absurd rfl hne
    | cons x rest => exact joinSegs_head_ne_empty x rest (hr x (by simp)).1
  rw [clean, if_pos hrooted, hout]
  cases hfp : (pathSegs p).filter keepSeg with
  | nil =>
    rw [List.append_nil, if_neg hxne]
    show chPre _ _ = true
    exact chPre_refl _
  | cons f0 frest =>
    rw [joinSegs_append rsegs (f0 :: frest) hne (by simp)]
    have hbne : joinSegs rsegs ++ "/" ++ joinSegs (f0 :: frest) ≠ "" := by
      intro h
      have hd := congrArg String.data h
      rw [strData_append, strData_append] at hd
      rcases hj : (joinSegs rsegs).data with _ | ⟨c, cs⟩ <;> simp_all
    rw [if_neg hbne]
    have hre : "/" ++ (joinSegs rsegs ++ "/" ++ joinSegs (f0 :: frest))
        = ("/" ++ joinSegs rsegs) ++ ("/" ++ joinSegs (f0 :: frest)) := by
      simp [strAppend_assoc]
    rw [hre]
    exact strHasPre_append _ _

/-! ## Claims about the rootFS resolver -/

/-- C1: the claim states that for every non-empty root other than the slash
marker and every absolute logical path, the resolver output is a descendant
of the root, with no combination of inputs (including dot-dot segments)
escaping. The code contradicts this and its own documentation: with root
/mnt, the absolute input /../etc takes the join branch and filepath.Join
normalizes the dot-dot through the root, producing /etc, which lies outside
/mnt. This theorem evaluates the embedded code at that failing input. -/
theorem resolveFilesystemPath_dotdot_escapes_root :
    resolveFilesystemPath "/../etc" "/mnt" = "/etc" ∧
    isUnder "/mnt" (resolveFilesystemPath "/../etc" "/mnt") = false := by
  constructor <;> decide

/-- C5 counterexample: resolve is not idempotent. With root /mnt, the input
/.. resolves to the slash path, and resolving the slash path against /mnt
gives /mnt, a different result. -/
theorem resolveFilesystemPath_not_idempotent :
    ¬ (resolveFilesystemPath (resolveFilesystemPath "/.." "/mnt") "/mnt"
        = resolveFilesystemPath "/.." "/mnt") := by
  decide

/-- C5 amended: resolve is idempotent whenever the configured root is a
normalized absolute directory path (a non-empty slash-led sequence of
segments, none empty, dot, dot-dot, or slash-containing) and the logical
path is absolute and free of dot-dot segments. On such inputs the joined
result keeps the root as a leading string, so re-resolution returns it
unchanged. -/
theorem resolveFilesystemPath_idempotent_on_normalized
    (rsegs : List String) (p : String)
    (hne : rsegs ≠ [])
    (hr : ∀ s ∈ rsegs, s ≠ "" ∧ s ≠ "." ∧ s ≠ ".." ∧ '/' ∉ s.toList)
    (hp : strHasPre "/" p = true)
    (hpd : ∀ s ∈ pathSegs p, s ≠ "..") :
    resolveFilesystemPath
        (resolveFilesystemPath p ("/" ++ joinSegs rsegs)) ("/" ++ joinSegs rsegs)
      = resolveFilesystemPath p ("/" ++ joinSegs rsegs) := by
  have hxne : joinSegs rsegs ≠ "" := by
    cases rsegs with
    | nil => exact absurd rfl hne
    | cons x rest => exact joinSegs_head_ne_empty x rest (hr x (by simp)).1
  have hRne : ("/" ++ joinSegs rsegs) ≠ "" := by
    intro h
    have hd := congrArg String.data h
    simp [strData_append] at hd
  have hRnslash : ("/" ++ joinSegs rsegs) ≠ "/" := by
    intro h
    have hd := congrArg String.data h
    rw [strData_append] at hd
    apply hxne
    apply congrArg String.mk
    simpa using hd
  have hnc : ¬(("/" ++ joinSegs rsegs) = "" ∨ ("/" ++ joinSegs rsegs) = "/") := by
    rintro (h | h)
    · exact hRne h
    · exact hRnslash h
  by_cases hgr : strHasPre ("/" ++ joinSegs rsegs) p = true
  · have hq : resolveFilesystemPath p ("/" ++ joinSegs rsegs) = p := by
      rw [resolveFilesystemPath, if_neg hnc, if_pos hgr]
    rw [hq, resolveFilesystemPath, if_neg hnc, if_pos hgr]
  · have hq : resolveFilesystemPath p ("/" ++ joinSegs rsegs)
        = goJoin ("/" ++ joinSegs rsegs) p := by
      rw [resolveFilesystemPath, if_neg hnc, if_neg hgr, if_pos hp]
    have hpne : p ≠ "" := by
      intro h
      rw [h] at hp
      exact absurd hp (by decide)
    have hjoin : goJoin ("/" ++ joinSegs rsegs) p
        = clean (("/" ++ joinSegs rsegs) ++ "/" ++ p) := by
      rw [goJoin, if_neg hRne, if_neg hpne]
    have hkeep : strHasPre ("/" ++ joinSegs rsegs)
        (resolveFilesystemPath p ("/" ++ joinSegs rsegs)) = true := by
      rw [hq, hjoin]
      exact clean_join_has_root rsegs p hne hr hpd
    rw [resolveFilesystemPath, if_neg hnc, if_pos hkeep]

/-- C5 amended witness: with the normalized root /mnt and the dot-dot-free
absolute path /etc, resolution is idempotent at a concrete input. -/
theorem resolveFilesystemPath_idempotent_on_normalized_witness :
    resolveFilesystemPath (resolveFilesystemPath "/etc" "/mnt") "/mnt"
      = resolveFilesystemPath "/etc" "/mnt" := by
  exact resolveFilesystemPath_idempotent_on_normalized ["mnt"] "/etc"
    (by simp) (by decide) (by decide) (by decide)

/-- C10: whenever the root is neither empty nor the slash marker and the
logical path begins with the root as a plain character-string prefix, the
resolver returns the path unchanged, with no normalization of any kind. -/
theorem resolveFilesystemPath_plain_string_match_unchanged
    (p r : String) (h1 : r ≠ "") (h2 : r ≠ "/") (h3 : strHasPre r p = true) :
    resolveFilesystemPath p r = p := by
  rw [resolveFilesystemPath, if_neg (by tauto), if_pos h3]

/-- C10 witness: the root /mnt leaves both /mntother/x (a non-descendant
sharing only characters) and /mnt/../etc (a dot-dot escape) unchanged. -/
theorem resolveFilesystemPath_plain_string_match_unchanged_witness :
    resolveFilesystemPath "/mntother/x" "/mnt" = "/mntother/x" ∧
    resolveFilesystemPath "/mnt/../etc" "/mnt" = "/mnt/../etc" := by
  constructor
  · exact resolveFilesystemPath_plain_string_match_unchanged _ _
      (by decide) (by decide) (by decide)
  · exact resolveFilesystemPath_plain_string_match_unchanged _ _
      (by decide) (by decide) (by decide)

/-! ## The gNMI path model and the classifiers -/

/-- One gNMI path element: a name and a mapping of keyed parameters, the
map modelled as an association list with unique keys. -/
structure PathElem where
  name : String
  key : List (String × String)
deriving Repr, DecidableEq

/-- A gNMI path is the ordered sequence of its elements. -/
abbrev GPath := List PathElem

/-- Name of the element at an index; Go code indexes only after a length
check, so the out-of-range default is never observed. -/
def nameAt (p : GPath) (i : Nat) : String :=
  match p[i]? with
  | some e => e.name
  | none => ""

/-- Key mapping of the element at an index. -/
def keyAt (p : GPath) (i : Nat) : List (String × String) :=
  match p[i]? with
  | some e => e.key
  | none => []

/-- Go map lookup with the ok flag: the value bound to a parameter name. -/
def lookupKey (ks : List (String × String)) (k : String) : Option String :=
  (ks.find? (fun kv => kv.fst = k)).map (fun kv => kv.snd)

/-- The distinct error conditions produced by the path utility functions,
one constructor per distinct error message family in the source. -/
inductive PathErr where
  | notResourcePath
  | missingKey
  | notFilesPath
  | invalidStructure
  | notDiskSpacePath
  | invalidDiskSpacePath
  | unknownMetric
deriving Repr, DecidableEq

/-- isFilesystemPath: at least three elements named sonic, system,
filesystem. -/
def isFilesystemPath (p : GPath) : Bool :=
  decide (3 ≤ p.length) && nameAt p 0 == "sonic" && nameAt p 1 == "system"
    && nameAt p 2 == "filesystem"

/-- extractFilesystemPath: the value of the path key on the filesystem
element, missing key reported as an error. -/
def extractFilesystemPath (p : GPath) : Except PathErr String :=
  if !(isFilesystemPath p) then .error .notResourcePath
  else
    match lookupKey (keyAt p 2) "path" with
    | some v => .ok v
    | none => .error .missingKey

/-- isDiskSpacePath: a filesystem path whose fourth element is disk-space. -/
def isDiskSpacePath (p : GPath) : Bool :=
  isFilesystemPath p && decide (4 ≤ p.length) && nameAt p 3 == "disk-space"

/-- validateDiskSpacePath: the handler-side validation accepts only a
disk-space path of length exactly four. -/
def validateDiskSpacePath (p : GPath) : Except PathErr Unit :=
  if !(isDiskSpacePath p) then .error .notDiskSpacePath
  else if p.length ≠ 4 then .error .invalidDiskSpacePath
  else .ok ()

/-- getDiskSpaceField from the path utility file: both for length four, a
specific metric for length five; this helper is not called by the disk
space handler, which uses validateDiskSpacePath instead. -/
def getDiskSpaceField (p : GPath) : Except PathErr String :=
  if !(isDiskSpacePath p) then .error .notDiskSpacePath
  else if p.length = 4 then .ok "both"
  else if p.length = 5 then
    (if nameAt p 4 = "total-mb" then .ok "total"
     else if nameAt p 4 = "available-mb" then .ok "available"
     else .error .unknownMetric)
  else .error .invalidDiskSpacePath

/-- isFirmwarePath: at least three elements named sonic, system,
firmware. -/
def isFirmwarePath (p : GPath) : Bool :=
  decide (3 ≤ p.length) && nameAt p 0 == "sonic" && nameAt p 1 == "system"
    && nameAt p 2 == "firmware"

/-- extractFirmwareDirectory: the value of the directory key on the
firmware element, missing key reported as an error. -/
def extractFirmwareDirectory (p : GPath) : Except PathErr String :=
  if !(isFirmwarePath p) then .error .notResourcePath
  else
    match lookupKey (keyAt p 2) "directory" with
    | some v => .ok v
    | none => .error .missingKey

/-- isFirmwareFilesPath: a firmware path whose fourth element is files. -/
def isFirmwareFilesPath (p : GPath) : Bool :=
  isFirmwarePath p && decide (4 ≤ p.length) && nameAt p 3 == "files"

/-- getFirmwareFileField: list for length four, count for length five with
a count element, the literal element name as a requested filename for any
other length-five path, and a structure error otherwise. -/
def getFirmwareFileField (p : GPath) : Except PathErr String :=
  if !(isFirmwareFilesPath p) then .error .notFilesPath
  else if p.length = 4 then .ok "list"
  else if p.length = 5 then
    (if nameAt p 4 = "count" then .ok "count" else .ok (nameAt p 4))
  else .error .invalidStructure

/-- isSonicImagePath: at least three elements named sonic, system,
sonic-image. -/
def isSonicImagePath (p : GPath) : Bool :=
  decide (3 ≤ p.length) && nameAt p 0 == "sonic" && nameAt p 1 == "system"
    && nameAt p 2 == "sonic-image"

/-- extractSonicImageDirectory: the value of the directory key on the
sonic-image element, missing key reported as an error. -/
def extractSonicImageDirectory (p : GPath) : Except PathErr String :=
  if !(isSonicImagePath p) then .error .notResourcePath
  else
    match lookupKey (keyAt p 2) "directory" with
    | some v => .ok v
    | none => .error .missingKey

/-- isSonicImageFilesPath: a sonic-image path whose fourth element is
files. -/
def isSonicImageFilesPath (p : GPath) : Bool :=
  isSonicImagePath p && decide (4 ≤ p.length) && nameAt p 3 == "files"

/-- getSonicImageFileField: the sonic-image twin of getFirmwareFileField
with identical selector resolution. -/
def getSonicImageFileField (p : GPath) : Except PathErr String :=
  if !(isSonicImageFilesPath p) then .error .notFilesPath
  else if p.length = 4 then .ok "list"
  else if p.length = 5 then
    (if nameAt p 4 = "count" then .ok "count" else .ok (nameAt p 4))
  else .error .invalidStructure

/-! ## The directory inspector

The filesystem is modelled as an explicit in-memory forest of entries.
Each entry carries the metadata that the walk callback reads through the
dir-entry Info call, together with fault flags: infoErr marks an entry
whose Info call fails (a failed stat or a broken symlink), and readErr on
a directory marks a directory whose contents cannot be read. The Go walk
logs and skips both kinds of fault and keeps going, which the model
mirrors by dropping the affected records while continuing the traversal. -/

/-- Metadata of one filesystem entry as read by the walk callback. -/
structure Meta where
  size : Int
  modTime : Int
  perm : String
  infoErr : Bool
deriving Repr, DecidableEq

/-- A forest of directory entries in traversal order: either no further
entries, a file entry followed by its siblings, or a directory entry with
its own child forest followed by its siblings. -/
inductive FsTree where
  | leaf : FsTree
  | fileCons (name : String) (m : Meta) (rest : FsTree) : FsTree
  | dirCons (name : String) (m : Meta) (readErr : Bool)
      (children : FsTree) (rest : FsTree) : FsTree
deriving Repr, DecidableEq

/-- FirmwareFileInfo record built for each visited entry. -/
structure FirmwareFileInfo where
  name : String
  size : Int
  modTime : Int
  isDirectory : Bool
  permissions : String
deriving Repr, DecidableEq

/-- Relative slash-joined name of a child under an accumulated relative
path, matching what filepath.Rel returns during the walk. -/
def relName (pre nm : String) : String :=
  if pre = "" then nm else pre ++ "/" ++ nm

/-- The WalkDir traversal with the ListFirmwareFiles callback: each
entry without an Info fault contributes one record; a directory is
descended into exactly when its contents are readable; faults never
abort the traversal. -/
def walk (pre : String) : FsTree → List FirmwareFileInfo
  | .leaf => []
  | .fileCons nm m rest =>
    (if m.infoErr then []
     else [{ name := relName pre nm, size := m.size, modTime := m.modTime,
             isDirectory := false, permissions := m.perm }]) ++ walk pre rest
  | .dirCons nm m rErr children rest =>
    (if m.infoErr then []
     else [{ name := relName pre nm, size := m.size, modTime := m.modTime,
             isDirectory := true, permissions := m.perm }]) ++
    (if rErr then [] else walk (relName pre nm) children) ++ walk pre rest

/-- Outcome of the initial stat call on the requested directory. -/
inductive RootStat where
  | ok
  | notExist
  | statErr
deriving Repr, DecidableEq

/-- Whole-listing failures: the directory does not exist, or the stat
failed for another reason. -/
inductive ListErr where
  | notExist
  | accessErr
deriving Repr, DecidableEq

/-- ListFirmwareFiles: fail when the initial stat fails, otherwise walk
the tree, skipping the root entry itself; when even the root directory
contents cannot be read the walk callback logs the error and the listing
still succeeds with no records. -/
def listFirmwareFiles (stat : RootStat) (root : FsTree) (rootReadErr : Bool) :
    Except ListErr (List FirmwareFileInfo) :=
  match stat with
  | .notExist => .error .notExist
  | .statErr => .error .accessErr
  | .ok => .ok (if rootReadErr then [] else walk "" root)

/-- GetFirmwareFileCount: the length of the full listing. -/
def getFirmwareFileCount (stat : RootStat) (root : FsTree) (rootReadErr : Bool) :
    Except ListErr Nat :=
  match listFirmwareFiles stat root rootReadErr with
  | .error e => .error e
  | .ok files => .ok files.length

/-- Failures of the single-file lookup: a listing failure or the absence
of the requested name. -/
inductive FileErr where
  | notExist
  | accessErr
  | notFound
deriving Repr, DecidableEq

/-- GetFirmwareFileInfo: list, then return the first record whose name is
exactly the requested filename, or a not-found error. -/
def getFirmwareFileInfo (stat : RootStat) (root : FsTree) (rootReadErr : Bool)
    (filename : String) : Except FileErr FirmwareFileInfo :=
  match listFirmwareFiles stat root rootReadErr with
  | .error .notExist => .error .notExist
  | .error .accessErr => .error .accessErr
  | .ok files =>
    match files.find? (fun f => f.name == filename) with
    | some f => .ok f
    | none => .error .notFound

/-- All descendant entry names of a forest, one per entry at any depth,
independent of any fault flags. -/
def descPaths (pre : String) : FsTree → List String
  | .leaf => []
  | .fileCons nm _ rest => relName pre nm :: descPaths pre rest
  | .dirCons nm _ _ children rest =>
    relName pre nm :: (descPaths (relName pre nm) children ++ descPaths pre rest)

/-- The descendant entry names that survive the fault-skipping walk: an
entry with an Info fault contributes no name, and the contents of an
unreadable directory are never reached. -/
def livePaths (pre : String) : FsTree → List String
  | .leaf => []
  | .fileCons nm m rest =>
    (if m.infoErr then [] else [relName pre nm]) ++ livePaths pre rest
  | .dirCons nm m rErr children rest =>
    (if m.infoErr then [] else [relName pre nm]) ++
    (if rErr then [] else livePaths (relName pre nm) children) ++ livePaths pre rest

/-- A forest with no fault flags set anywhere. -/
def faultFree : FsTree → Bool
  | .leaf => true
  | .fileCons _ m rest => !m.infoErr && faultFree rest
  | .dirCons _ m rErr children rest =>
    !m.infoErr && !rErr && faultFree children && faultFree rest

/-! ## The dispatcher and the request handlers

The handlers return either a gRPC status code or a shaped response value.
External collaborators appear as function parameters: the disk-space
provider maps a resolved path to capacity figures or an error, and the
file service maps a requested directory to a listing or an error, standing
for the whole resolve-stat-walk pipeline of the file layer. -/

/-- The gRPC status codes the handlers produce. -/
inductive Code where
  | invalidArgument
  | notFound
  | failedPrecondition
  | internal
deriving Repr, DecidableEq

/-- Capacity figures returned by the storage capacity provider. -/
structure DiskSpaceInfo where
  totalMB : Nat
  availableMB : Nat
deriving Repr, DecidableEq

/-- The shaped disk-space response value; an option field models presence
or omission of the corresponding JSON field. -/
structure DiskSpaceValue where
  path : String
  totalMB : Option Nat
  availableMB : Option Nat
deriving Repr, DecidableEq

/-- The three shaped file-listing response values: a bare count, a full
listing envelope, and a single-file envelope. -/
inductive FileValue where
  | count (n : Nat)
  | listing (directory : String) (fileCount : Nat) (files : List FirmwareFileInfo)
  | single (directory : String) (file : FirmwareFileInfo)
deriving Repr, DecidableEq

/-- handleDiskSpaceRequest: validate the path shape, resolve the
filesystem path against the rootFS, query the provider, and shape a value
that always carries the requested path and both capacity fields. -/
def handleDiskSpaceRequest (provider : String → Except Unit DiskSpaceInfo)
    (rootFS : String) (p : GPath) (fsPath : String) :
    Except Code DiskSpaceValue :=
  match validateDiskSpacePath p with
  | .error _ => .error .invalidArgument
  | .ok _ =>
    match provider (resolveFilesystemPath fsPath rootFS) with
    | .error _ => .error .internal
    | .ok info =>
      .ok { path := fsPath, totalMB := some info.totalMB,
            availableMB := some info.availableMB }

/-- handleFilesystemPath: extract the filesystem path, dispatch disk-space
requests, and reject any other filesystem metric. -/
def handleFilesystemPath (provider : String → Except Unit DiskSpaceInfo)
    (rootFS : String) (p : GPath) : Except Code DiskSpaceValue :=
  match extractFilesystemPath p with
  | .error _ => .error .invalidArgument
  | .ok fsPath =>
    if isDiskSpacePath p then handleDiskSpaceRequest provider rootFS p fsPath
    else .error .notFound

/-- handleFirmwareFilesRequest: select the operation from the resolved
selector field and shape the corresponding response value; every failure
of the file service surfaces as an internal error. -/
def handleFirmwareFilesRequest
    (fileService : String → Except ListErr (List FirmwareFileInfo))
    (p : GPath) (firmwareDir : String) : Except Code FileValue :=
  match getFirmwareFileField p with
  | .error _ => .error .invalidArgument
  | .ok field =>
    if field = "count" then
      match fileService firmwareDir with
      | .error _ => .error .internal
      | .ok files => .ok (.count files.length)
    else if field = "list" then
      match fileService firmwareDir with
      | .error _ => .error .internal
      | .ok files => .ok (.listing firmwareDir files.length files)
    else
      match fileService firmwareDir with
      | .error _ => .error .internal
      | .ok files =>
        match files.find? (fun f => f.name == field) with
        | some f => .ok (.single firmwareDir f)
        | none => .error .internal

/-- handleFirmwarePath: the gNOI File subsystem flag is checked first and
a disabled subsystem fails the request before anything else runs; then the
directory is extracted and a files request is dispatched. -/
def handleFirmwarePath (enableGNOIFile : Bool)
    (fileService : String → Except ListErr (List FirmwareFileInfo))
    (p : GPath) : Except Code FileValue :=
  if !enableGNOIFile then .error .failedPrecondition
  else
    match extractFirmwareDirectory p with
    | .error _ => .error .invalidArgument
    | .ok firmwareDir =>
      if isFirmwareFilesPath p then
        handleFirmwareFilesRequest fileService p firmwareDir
      else .error .notFound

/-- handleSonicImageFilesRequest: the sonic-image twin of the firmware
files request, backed by the internal file library. -/
def handleSonicImageFilesRequest
    (fileService : String → Except ListErr (List FirmwareFileInfo))
    (p : GPath) (sonicImageDir : String) : Except Code FileValue :=
  match getSonicImageFileField p with
  | .error _ => .error .invalidArgument
  | .ok field =>
    if field = "count" then
      match fileService sonicImageDir with
      | .error _ => .error .internal
      | .ok files => .ok (.count files.length)
    else if field = "list" then
      match fileService sonicImageDir with
      | .error _ => .error .internal
      | .ok files => .ok (.listing sonicImageDir files.length files)
    else
      match fileService sonicImageDir with
      | .error _ => .error .internal
      | .ok files =>
        match files.find? (fun f => f.name == field) with
        | some f => .ok (.single sonicImageDir f)
        | none => .error .internal

/-- handleSonicImagePath: the sonic-image handler; unlike the firmware
handler it is not gated on any subsystem flag. -/
def handleSonicImagePath
    (fileService : String → Except ListErr (List FirmwareFileInfo))
    (p : GPath) : Except Code FileValue :=
  match extractSonicImageDirectory p with
  | .error _ => .error .invalidArgument
  | .ok sonicImageDir =>
    if isSonicImageFilesPath p then
      handleSonicImageFilesRequest fileService p sonicImageDir
    else .error .notFound

/-! ## Helper lemmas for the walk -/

theorem walk_map_name_live (t : FsTree) :
    ∀ pre, (walk pre t).map (fun f => f.name) = livePaths pre t := by
  induction t with
  | leaf => intro pre; rfl
  | fileCons nm m rest ih =>
    intro pre
    cases hie : m.infoErr <;> simp [walk, livePaths, hie, ih]
  | dirCons nm m rErr children rest ihc ihr =>
    intro pre
    cases hie : m.infoErr <;> cases hre : rErr <;>
      simp [walk, livePaths, hie, hre, ihc, ihr]

theorem walk_map_name_faultFree (t : FsTree) (h : faultFree t = true) :
    ∀ pre, (walk pre t).map (fun f => f.name) = descPaths pre t := by
  induction t with
  | leaf => intro pre; rfl
  | fileCons nm m rest ih =>
    intro pre
    simp only [faultFree, Bool.and_eq_true, Bool.not_eq_true'] at h
    simp [walk, descPaths, h.1, ih h.2]
  | dirCons nm m rErr children rest ihc ihr =>
    intro pre
    simp only [faultFree, Bool.and_eq_true, Bool.not_eq_true'] at h
    simp [walk, descPaths, h.1.1.1, h.1.1.2, ihc h.1.2, ihr h.2]

/-! ## Claims about the classifiers, the handlers and the inspector -/

/-- C2 counterexample: the claim states that a disk-space path of length
five naming a specific metric selects that metric. The handler instead
validates with validateDiskSpacePath, which accepts only length four, so
the concrete length-five total-mb query is rejected as an invalid
argument even though the unused helper getDiskSpaceField would have
classified it; no metric-specific field omission ever happens. -/
theorem diskSpace_metric_selector_rejected :
    handleFilesystemPath (fun _ => .ok ⟨1000, 500⟩) "/"
        [⟨"sonic", []⟩, ⟨"system", []⟩, ⟨"filesystem", [("path", "/host")]⟩,
         ⟨"disk-space", []⟩, ⟨"total-mb", []⟩]
      = .error .invalidArgument ∧
    getDiskSpaceField
        [⟨"sonic", []⟩, ⟨"system", []⟩, ⟨"filesystem", [("path", "/host")]⟩,
         ⟨"disk-space", []⟩, ⟨"total-mb", []⟩]
      = .ok "total" := by
  constructor <;> rfl

/-- C2 amended: only the both selector is supported. A disk-space query
must have exactly four elements; it then succeeds whenever the provider
does, and the shaped value always carries the path and both capacity
fields. Any other length, in particular a five-element metric path, is
rejected as an invalid argument. -/
theorem handleDiskSpaceRequest_both_only
    (provider : String → Except Unit DiskSpaceInfo)
    (rootFS fsPath : String) (p : GPath) (info : DiskSpaceInfo)
    (hds : isDiskSpacePath p = true) :
    (p.length = 4 → provider (resolveFilesystemPath fsPath rootFS) = .ok info →
      handleDiskSpaceRequest provider rootFS p fsPath
        = .ok ⟨fsPath, some info.totalMB, some info.availableMB⟩) ∧
    (p.length ≠ 4 → handleDiskSpaceRequest provider rootFS p fsPath
        = .error .invalidArgument) := by
  constructor
  · intro h4 hprov
    simp [handleDiskSpaceRequest, validateDiskSpacePath, hds, h4, hprov]
  · intro h4
    simp [handleDiskSpaceRequest, validateDiskSpacePath, hds, h4]

/-- C2 amended witness: a concrete four-element query returns both
fields and a concrete five-element metric query is rejected. -/
theorem handleDiskSpaceRequest_both_only_witness :
    handleDiskSpaceRequest (fun _ => .ok ⟨1000, 500⟩) "/host-root"
        [⟨"sonic", []⟩, ⟨"system", []⟩, ⟨"filesystem", [("path", "/host")]⟩,
         ⟨"disk-space", []⟩] "/host"
      = .ok ⟨"/host", some 1000, some 500⟩ ∧
    handleDiskSpaceRequest (fun _ => .ok ⟨1000, 500⟩) "/host-root"
        [⟨"sonic", []⟩, ⟨"system", []⟩, ⟨"filesystem", [("path", "/host")]⟩,
         ⟨"disk-space", []⟩, ⟨"available-mb", []⟩] "/host"
      = .error .invalidArgument := by
  constructor
  · exact (handleDiskSpaceRequest_both_only (fun _ => .ok ⟨1000, 500⟩)
      "/host-root" "/host" _ ⟨1000, 500⟩ (by decide)).1 rfl rfl
  · exact (handleDiskSpaceRequest_both_only (fun _ => .ok ⟨1000, 500⟩)
      "/host-root" "/host" _ ⟨1000, 500⟩ (by decide)).2 (by decide)

/-- C3: when the gNOI File subsystem flag is disabled, the firmware
handler fails with the precondition code on every path and for every
behavior of the file service: the result does not depend on the file
service at all, so no filesystem access happens before the failure. -/
theorem handleFirmwarePath_disabled_no_fs_access
    (fileService : String → Except ListErr (List FirmwareFileInfo)) (p : GPath) :
    handleFirmwarePath false fileService p = .error .failedPrecondition := rfl

/-- C4: selector resolution for both file-listing resources. Under the
resource-shape guard, length four resolves to list, length five with a
count element resolves to count, length five with any other element name
resolves to that literal name as a requested filename, and any longer
path is a structure error. -/
theorem getFileField_selector_resolution (p q : GPath)
    (hp : isFirmwareFilesPath p = true) (hq : isSonicImageFilesPath q = true) :
    ((p.length = 4 → getFirmwareFileField p = .ok "list") ∧
     (p.length = 5 → nameAt p 4 = "count" → getFirmwareFileField p = .ok "count") ∧
     (p.length = 5 → nameAt p 4 ≠ "count" →
        getFirmwareFileField p = .ok (nameAt p 4)) ∧
     (5 < p.length → getFirmwareFileField p = .error .invalidStructure)) ∧
    ((q.length = 4 → getSonicImageFileField q = .ok "list") ∧
     (q.length = 5 → nameAt q 4 = "count" → getSonicImageFileField q = .ok "count") ∧
     (q.length = 5 → nameAt q 4 ≠ "count" →
        getSonicImageFileField q = .ok (nameAt q 4)) ∧
     (5 < q.length → getSonicImageFileField q = .error .invalidStructure)) := by
  constructor
  · refine ⟨?_, ?_, ?_, ?_⟩
    · intro h4
      simp [getFirmwareFileField, hp, h4]
    · intro h5 hc
      simp [getFirmwareFileField, hp, h5, hc]
    · intro h5 hc
      simp [getFirmwareFileField, hp, h5, hc]
    · intro hgt
      have h4 : p.length ≠ 4 := by omega
      have h5 : p.length ≠ 5 := by omega
      simp [getFirmwareFileField, hp, h4, h5]
  · refine ⟨?_, ?_, ?_, ?_⟩
    · intro h4
      simp [getSonicImageFileField, hq, h4]
    · intro h5 hc
      simp [getSonicImageFileField, hq, h5, hc]
    · intro h5 hc
      simp [getSonicImageFileField, hq, h5, hc]
    · intro hgt
      have h4 : q.length ≠ 4 := by omega
      have h5 : q.length ≠ 5 := by omega
      simp [getSonicImageFileField, hq, h4, h5]

/-- C4 witness: a four-element firmware query yields the list selector, a
five-element count query yields count, a five-element named query yields
the filename, and a six-element query is a structure error. -/
theorem getFileField_selector_resolution_witness :
    getFirmwareFileField
        [⟨"sonic", []⟩, ⟨"system", []⟩, ⟨"firmware", [("directory", "/lib/firmware")]⟩,
         ⟨"files", []⟩]
      = .ok "list" ∧
    getSonicImageFileField
        [⟨"sonic", []⟩, ⟨"system", []⟩, ⟨"sonic-image", [("directory", "/images")]⟩,
         ⟨"files", []⟩, ⟨"count", []⟩]
      = .ok "count" ∧
    getSonicImageFileField
        [⟨"sonic", []⟩, ⟨"system", []⟩, ⟨"sonic-image", [("directory", "/images")]⟩,
         ⟨"files", []⟩, ⟨"count", []⟩, ⟨"extra", []⟩]
      = .error .invalidStructure := by
  refine ⟨?_, ?_, ?_⟩
  · exact (getFileField_selector_resolution
      [⟨"sonic", []⟩, ⟨"system", []⟩, ⟨"firmware", [("directory", "/lib/firmware")]⟩,
       ⟨"files", []⟩]
      [⟨"sonic", []⟩, ⟨"system", []⟩, ⟨"sonic-image", [("directory", "/images")]⟩,
       ⟨"files", []⟩, ⟨"count", []⟩]
      (by decide) (by decide)).1.1 rfl
  · exact (getFileField_selector_resolution
      [⟨"sonic", []⟩, ⟨"system", []⟩, ⟨"firmware", [("directory", "/lib/firmware")]⟩,
       ⟨"files", []⟩]
      [⟨"sonic", []⟩, ⟨"system", []⟩, ⟨"sonic-image", [("directory", "/images")]⟩,
       ⟨"files", []⟩, ⟨"count", []⟩]
      (by decide) (by decide)).2.2.1 rfl rfl
  · exact (getFileField_selector_resolution
      [⟨"sonic", []⟩, ⟨"system", []⟩, ⟨"firmware", [("directory", "/lib/firmware")]⟩,
       ⟨"files", []⟩]
      [⟨"sonic", []⟩, ⟨"system", []⟩, ⟨"sonic-image", [("directory", "/images")]⟩,
       ⟨"files", []⟩, ⟨"count", []⟩, ⟨"extra", []⟩]
      (by decide) (by decide)).2.2.2.2 (by decide)

/-- C6: on a fault-free tree the listing succeeds, its records carry
exactly the descendant names in traversal order with the root entry
excluded, and the derived count equals the length of the listing, which
equals the number of descendants. -/
theorem listFirmwareFiles_complete (t : FsTree) (h : faultFree t = true) :
    ∃ recs, listFirmwareFiles .ok t false = .ok recs ∧
      recs.map (fun f => f.name) = descPaths "" t ∧
      recs.length = (descPaths "" t).length ∧
      getFirmwareFileCount .ok t false = .ok recs.length := by
  refine ⟨walk "" t, rfl, walk_map_name_faultFree t h "", ?_, rfl⟩
  rw [← walk_map_name_faultFree t h "", List.length_map]

/-- C6 witness: the listing of a concrete tree with a nested
subdirectory has exactly the descendant records and count three. -/
theorem listFirmwareFiles_complete_witness :
    ∃ recs,
      listFirmwareFiles .ok
          (.fileCons "a.bin" ⟨10, 0, "-rw-", false⟩
            (.dirCons "sub" ⟨4096, 0, "drwx", false⟩ false
              (.fileCons "c.bin" ⟨5, 0, "-rw-", false⟩ .leaf) .leaf))
          false
        = .ok recs ∧
      recs.map (fun f => f.name) = ["a.bin", "sub", "sub/c.bin"] ∧
      recs.length = 3 ∧
      getFirmwareFileCount .ok
          (.fileCons "a.bin" ⟨10, 0, "-rw-", false⟩
            (.dirCons "sub" ⟨4096, 0, "drwx", false⟩ false
              (.fileCons "c.bin" ⟨5, 0, "-rw-", false⟩ .leaf) .leaf))
          false
        = .ok recs.length := by
  exact listFirmwareFiles_complete
    (.fileCons "a.bin" ⟨10, 0, "-rw-", false⟩
      (.dirCons "sub" ⟨4096, 0, "drwx", false⟩ false
        (.fileCons "c.bin" ⟨5, 0, "-rw-", false⟩ .leaf) .leaf)) rfl

/-- C7: under a successful listing, the single-file lookup returns a
record bearing exactly the requested name whenever one is present among
the listed records, and fails with the not-found error exactly when no
listed record has that name. -/
theorem getFirmwareFileInfo_found_iff (stat : RootStat) (t : FsTree)
    (rErr : Bool) (fn : String) (recs : List FirmwareFileInfo)
    (h : listFirmwareFiles stat t rErr = .ok recs) :
    ((∃ r, r ∈ recs ∧ r.name = fn) →
       ∃ r, getFirmwareFileInfo stat t rErr fn = .ok r ∧ r ∈ recs ∧ r.name = fn) ∧
    ((¬ ∃ r, r ∈ recs ∧ r.name = fn) →
       getFirmwareFileInfo stat t rErr fn = .error .notFound) := by
  constructor
  · rintro ⟨r, hr, hname⟩
    have hsome : (recs.find? (fun f => f.name == fn)).isSome = true := by
      rw [List.find?_isSome]
      exact ⟨r, hr, by simp [hname]⟩
    obtain ⟨r2, hfind⟩ := Option.isSome_iff_exists.mp hsome
    have hmem : r2 ∈ recs := List.mem_of_find?_eq_some hfind
    have hname2 : r2.name = fn := by
      have := List.find?_some hfind
      simpa using this
    refine ⟨r2, ?_, hmem, hname2⟩
    simp [getFirmwareFileInfo, h, hfind]
  · intro hnone
    have hfind : recs.find? (fun f => f.name == fn) = none := by
      rw [List.find?_eq_none]
      intro x hx
      simp only [beq_iff_eq]
      exact fun he => hnone ⟨x, hx, he⟩
    simp [getFirmwareFileInfo, h, hfind]

/-- C7 witness: in a concrete listing the present name a.bin is found
with that exact name and the absent name zzz.bin reports not-found. -/
theorem getFirmwareFileInfo_found_iff_witness :
    (∃ r, getFirmwareFileInfo .ok (.fileCons "a.bin" ⟨10, 0, "-rw-", false⟩ .leaf)
          false "a.bin" = .ok r ∧
        r ∈ [({ name := "a.bin", size := 10, modTime := 0, isDirectory := false,
                permissions := "-rw-" } : FirmwareFileInfo)] ∧ r.name = "a.bin") ∧
    getFirmwareFileInfo .ok (.fileCons "a.bin" ⟨10, 0, "-rw-", false⟩ .leaf)
        false "zzz.bin" = .error .notFound := by
  constructor
  · exact (getFirmwareFileInfo_found_iff .ok
      (.fileCons "a.bin" ⟨10, 0, "-rw-", false⟩ .leaf) false "a.bin"
      [{ name := "a.bin", size := 10, modTime := 0, isDirectory := false,
         permissions := "-rw-" }] rfl).1
      ⟨{ name := "a.bin", size := 10, modTime := 0, isDirectory := false,
         permissions := "-rw-" }, by simp, rfl⟩
  · exact (getFirmwareFileInfo_found_iff .ok
      (.fileCons "a.bin" ⟨10, 0, "-rw-", false⟩ .leaf) false "zzz.bin"
      [{ name := "a.bin", size := 10, modTime := 0, isDirectory := false,
         permissions := "-rw-" }] rfl).2 (by decide)

/-- C8 counterexample: the claim states that a present-but-empty
directory or filename parameter fails with the missing-parameter error.
Instead, extraction succeeds with the empty string for both resource
kinds, the firmware handler then proceeds to the file service and fails
there with an internal error, and an empty fifth element name is accepted
as a literal requested filename. -/
theorem emptyParam_not_missingParameter :
    extractFirmwareDirectory
        [⟨"sonic", []⟩, ⟨"system", []⟩, ⟨"firmware", [("directory", "")]⟩,
         ⟨"files", []⟩]
      = .ok "" ∧
    extractSonicImageDirectory
        [⟨"sonic", []⟩, ⟨"system", []⟩, ⟨"sonic-image", [("directory", "")]⟩,
         ⟨"files", []⟩]
      = .ok "" ∧
    handleFirmwarePath true (fun _ => .error .notExist)
        [⟨"sonic", []⟩, ⟨"system", []⟩, ⟨"firmware", [("directory", "")]⟩,
         ⟨"files", []⟩]
      = .error .internal ∧
    getFirmwareFileField
        [⟨"sonic", []⟩, ⟨"system", []⟩, ⟨"firmware", [("directory", "/lib/firmware")]⟩,
         ⟨"files", []⟩, ⟨"", []⟩]
      = .ok "" := by
  refine ⟨rfl, rfl, rfl, rfl⟩

/-- C8 amended: parameter extraction fails with the missing-parameter
error exactly when the directory key is absent from the key mapping of
the resource element; a key that is present, even with an empty value, is
accepted and its value returned, for both resource kinds. -/
theorem extractDirectory_missing_iff_absent (p q : GPath)
    (hp : isFirmwarePath p = true) (hq : isSonicImagePath q = true) :
    ((extractFirmwareDirectory p = .error .missingKey ↔
        lookupKey (keyAt p 2) "directory" = none) ∧
     (∀ v, lookupKey (keyAt p 2) "directory" = some v →
        extractFirmwareDirectory p = .ok v)) ∧
    ((extractSonicImageDirectory q = .error .missingKey ↔
        lookupKey (keyAt q 2) "directory" = none) ∧
     (∀ v, lookupKey (keyAt q 2) "directory" = some v →
        extractSonicImageDirectory q = .ok v)) := by
  constructor
  · constructor
    · cases hk : lookupKey (keyAt p 2) "directory" <;>
        simp [extractFirmwareDirectory, hp, hk]
    · intro v hk
      simp [extractFirmwareDirectory, hp, hk]
  · constructor
    · cases hk : lookupKey (keyAt q 2) "directory" <;>
        simp [extractSonicImageDirectory, hq, hk]
    · intro v hk
      simp [extractSonicImageDirectory, hq, hk]

/-- C8 amended witness: a present empty directory value is returned as is
for the firmware resource, and an absent key reports the missing
parameter for the sonic-image resource. -/
theorem extractDirectory_missing_iff_absent_witness :
    extractFirmwareDirectory
        [⟨"sonic", []⟩, ⟨"system", []⟩, ⟨"firmware", [("directory", "")]⟩,
         ⟨"files", []⟩]
      = .ok "" ∧
    extractSonicImageDirectory
        [⟨"sonic", []⟩, ⟨"system", []⟩, ⟨"sonic-image", []⟩, ⟨"files", []⟩]
      = .error .missingKey := by
  constructor
  · exact ((extractDirectory_missing_iff_absent
      [⟨"sonic", []⟩, ⟨"system", []⟩, ⟨"firmware", [("directory", "")]⟩,
       ⟨"files", []⟩]
      [⟨"sonic", []⟩, ⟨"system", []⟩, ⟨"sonic-image", []⟩, ⟨"files", []⟩]
      (by decide) (by decide)).1).2 "" rfl
  · exact ((extractDirectory_missing_iff_absent
      [⟨"sonic", []⟩, ⟨"system", []⟩, ⟨"firmware", [("directory", "")]⟩,
       ⟨"files", []⟩]
      [⟨"sonic", []⟩, ⟨"system", []⟩, ⟨"sonic-image", []⟩, ⟨"files", []⟩]
      (by decide) (by decide)).2).1.mpr rfl

/-- C9: for every fault configuration of the tree and of the root
directory read, the listing succeeds exactly when the initial stat on the
root succeeds, and the returned records are precisely those of the
entries the fault-skipping walk still reaches: per-entry faults never
abort the walk, and only a root stat failure fails the listing. -/
theorem listFirmwareFiles_fault_tolerant (stat : RootStat) (t : FsTree)
    (rErr : Bool) :
    (∃ recs, listFirmwareFiles stat t rErr = .ok recs ∧
       recs.map (fun f => f.name) = (if rErr then [] else livePaths "" t))
      ↔ stat = .ok := by
  constructor
  · rintro ⟨recs, hok, -⟩
    cases stat with
    | ok => rfl
    | notExist => exact absurd hok (by simp [listFirmwareFiles])
    | statErr => exact absurd hok (by simp [listFirmwareFiles])
  · rintro rfl
    refine ⟨if rErr then [] else walk "" t, rfl, ?_⟩
    cases rErr with
    | false => simpa using walk_map_name_live t ""
    | true => rfl

end SonicGnmi
